import Mathlib

/-!
Verification of the Signal Aggregation and Consensus Engine of the
sentiment-analysis MCP repository, as a shallow embedding in Lean 4.

Numbers: JavaScript numbers are idealized as exact rationals where the
source only performs field operations.  Where the source can produce a
non-finite double (NaN from multiplying with an absent field, NaN or an
infinity from dividing by zero), values are modelled as `Option Rat`
with `none` standing for a non-finite double; every arithmetic
operation propagates `none`, matching NaN propagation (the claims under
study never reach a path where an infinity re-enters finite arithmetic).
Where the source calls Math.sqrt (the Pearson correlation), values live
in the real numbers.
-/

/-- Trend classification used throughout the repository. -/
inductive Trend where
  | rising
  | falling
  | stable
deriving DecidableEq

/-- Direction of a trading signal (the consensus code compares with the
string literals "up" and "down"). -/
inductive Direction where
  | up
  | down
deriving DecidableEq

/-- A per-source sentiment datum as consumed by SentimentModel.process:
each entry of sentimentData carries a numeric score and a trend. -/
structure SourceData where
  score : Rat
  trend : Trend
deriving DecidableEq

/-- An agent signal as consumed by the consensus mechanisms.
agentAccuracy is optional: `none` models the field being absent, in
which case JavaScript arithmetic on it produces NaN. -/
structure Signal where
  asset : String
  direction : Direction
  agentId : String
  confidence : Rat
  agentAccuracy : Option Rat
deriving DecidableEq

/-- JavaScript Math.round: round half toward positive infinity. -/
def jsRound (q : Rat) : Int := ⌊q + 1/2⌋

/-- Math.round(x * 10) / 10 : round to one decimal place. -/
def round1 (q : Rat) : Rat := (jsRound (q * 10) : Rat) / 10

/-- Math.round(x * 100) / 100 : round to two decimal places. -/
def round2 (q : Rat) : Rat := (jsRound (q * 100) : Rat) / 100

namespace SentimentModel

/-- this.config.minDataPoints in sentiment-model.js. -/
def minDataPoints : Nat := 3

/-- this.config.defaultScore in sentiment-model.js. -/
def defaultScore : Rat := 50

/-- this.config.trendThreshold in sentiment-model.js (0.05). -/
def trendThreshold : Rat := 1/20

/-- One entry of the breakdown mapping built by SentimentModel.process. -/
structure BreakdownEntry where
  score : Rat
  weight : Rat
  contribution : Rat
  trend : Trend
deriving DecidableEq

/-- The object returned by SentimentModel.process. -/
structure FusionResult where
  score : Rat
  normalized : Rat
  trend : Trend
  breakdown : List (String × BreakdownEntry)
  confidence : Rat
deriving DecidableEq

/-- The numeric vote assigned to a trend inside process:
rising maps to 1, falling to -1, stable to 0. -/
def trendVote (t : Trend) : Rat :=
  match t with
  | .rising => 1
  | .falling => -1
  | .stable => 0

/-- The normalizedWeights object of process: weights divided by
totalWeight, restricted to the sources present in sentimentData. -/
def normalizedWeights (sentimentData : List (String × SourceData))
    (weights : List (String × Rat)) (totalWeight : Rat) : List (String × Rat) :=
  weights.filterMap fun p =>
    if (sentimentData.lookup p.1).isSome then some (p.1, p.2 / totalWeight) else none

/-- The trendValues array of process: the votes of the sources present
in sentimentData, in object order. -/
def trendValues (sentimentData : List (String × SourceData)) : List Rat :=
  sentimentData.map fun p => trendVote p.2.trend

/-- The overall trendDirection computed by process. -/
def trendDirection (sentimentData : List (String × SourceData)) : Trend :=
  let votes := trendValues sentimentData
  if 0 < votes.length then
    let avgTrend := votes.sum / (votes.length : Rat)
    if trendThreshold < avgTrend then .rising
    else if avgTrend < -trendThreshold then .falling
    else .stable
  else .stable

/-- The trendAgreement ratio of process: matching votes divided by
max(1, number of votes). -/
def trendAgreement (sentimentData : List (String × SourceData)) : Rat :=
  let votes := trendValues sentimentData
  let dir := trendDirection sentimentData
  let matching := votes.filter fun v =>
    decide ((dir = .rising ∧ 0 < v) ∨ (dir = .falling ∧ v < 0) ∨ (dir = .stable ∧ v = 0))
  (matching.length : Rat) / ((max 1 votes.length : Nat) : Rat)

/-- The unrounded confidence of process:
(numSources / 3) * 0.5 + trendAgreement * 0.5. -/
def rawConfidence (sentimentData : List (String × SourceData)) : Rat :=
  ((sentimentData.length : Rat) / 3) * (1/2) + trendAgreement sentimentData * (1/2)

/-- SentimentModel.process: fuses the per-source sentiment data into one
FusionResult.  sentimentData and weights are association lists standing
for the JavaScript objects (keys in insertion order).  This embedding is
a total function: the source method performs no throwing operation. -/
def process (sentimentData : List (String × SourceData))
    (weights : List (String × Rat)) (totalWeight : Rat) : FusionResult :=
  if totalWeight ≤ 0 then
    { score := defaultScore
      normalized := defaultScore / 100
      trend := .stable
      breakdown := []
      confidence := 0 }
  else
    let nw := normalizedWeights sentimentData weights totalWeight
    let weightedScore :=
      (sentimentData.map fun p => p.2.score * ((nw.lookup p.1).getD 0)).sum
    let breakdown := sentimentData.map fun p =>
      (p.1, { score := p.2.score
              weight := (nw.lookup p.1).getD 0
              contribution := p.2.score * ((nw.lookup p.1).getD 0)
              trend := p.2.trend : BreakdownEntry })
    { score := round1 weightedScore
      normalized := weightedScore / 100
      trend := trendDirection sentimentData
      breakdown := breakdown
      confidence := round2 (rawConfidence sentimentData) }

end SentimentModel

/-- Mean of the first n entries of a list, as computed by both
correlation implementations (slice(0, n).reduce(...) / n). -/
def sampleMean (x : List Rat) (n : Nat) : Rat := (x.take n).sum / (n : Rat)

/-- The numerator accumulated by the correlation loop:
sum over i < n of (x[i] - xMean) * (y[i] - yMean). -/
def corrNumerator (x y : List Rat) (n : Nat) : Rat :=
  Finset.sum (Finset.range n) fun i =>
    (x.getD i 0 - sampleMean x n) * (y.getD i 0 - sampleMean y n)

/-- The xVariance accumulator of the correlation loop:
sum over i < n of (x[i] - xMean) * (x[i] - xMean). -/
def corrVariance (x : List Rat) (n : Nat) : Rat :=
  Finset.sum (Finset.range n) fun i =>
    (x.getD i 0 - sampleMean x n) * (x.getD i 0 - sampleMean x n)

namespace SentimentModel

/-- SentimentModel.calculateCorrelation: Pearson coefficient over the
first n = min(len x, len y) entries; 0 when n < minDataPoints (3) or
either variance vanishes; otherwise numerator / sqrt(xVar * yVar).
The final value lives in the reals because of Math.sqrt.  This
embedding is a total function: the source method performs no throwing
operation. -/
noncomputable def calculateCorrelation (x y : List Rat) : Real :=
  let n := min x.length y.length
  if n < minDataPoints then 0
  else if corrVariance x n = 0 ∨ corrVariance y n = 0 then 0
  else ((corrNumerator x y n : Rat) : Real) /
    Real.sqrt (((corrVariance x n * corrVariance y n : Rat) : Real))

/-- The paired observations built by calculateOptimalLag for one lag:
(series1[i], series2[i + lag]) for the indices where both are valid. -/
def pairsAtLag (s1 s2 : List Rat) (lag : Int) : List (Rat × Rat) :=
  (List.range s1.length).filterMap fun (i : Nat) =>
    if 0 ≤ (i : Int) + lag ∧ (i : Int) + lag < (s2.length : Int) then
      some (s1.getD i 0, s2.getD ((i : Int) + lag).toNat 0)
    else none

/-- One iteration of the lag scan: keep the state unless this lag has at
least minDataPoints pairs and a strictly greater absolute correlation.
The state is (bestLag, bestCorrelation). -/
noncomputable def lagStep (s1 s2 : List Rat) (best : Int × Real) (lag : Int) :
    Int × Real :=
  let pairs := pairsAtLag s1 s2 lag
  if minDataPoints ≤ pairs.length then
    let c := |calculateCorrelation (pairs.map Prod.fst) (pairs.map Prod.snd)|
    if best.2 < c then (lag, c) else best
  else best

/-- The ascending list of lags scanned: -maxLag, ..., 0, ..., maxLag. -/
def lagList (maxLag : Nat) : List Int :=
  (List.range (2 * maxLag + 1)).map fun (k : Nat) => (k : Int) - (maxLag : Int)

/-- The absolute correlation tested by the scan at one lag (the value
the lagStep comparison is about). -/
noncomputable def lagCorrAbs (s1 s2 : List Rat) (lag : Int) : Real :=
  |calculateCorrelation ((pairsAtLag s1 s2 lag).map Prod.fst)
    ((pairsAtLag s1 s2 lag).map Prod.snd)|

/-- SentimentModel.calculateOptimalLag: 0 when either series is shorter
than minDataPoints, otherwise the bestLag after folding the scan over
the ascending lag list starting from (0, 0). -/
noncomputable def calculateOptimalLag (s1 s2 : List Rat) (maxLag : Nat) : Int :=
  if s1.length < minDataPoints ∨ s2.length < minDataPoints then 0
  else ((lagList maxLag).foldl (lagStep s1 s2) (0, 0)).1

end SentimentModel

namespace MarketSentimentAnalyzer

/-- MarketSentimentAnalyzer._calculateCorrelation: identical formulas to
SentimentModel.calculateCorrelation, but the early return guards only
n < 2 (not n < 3).  Total function: the source method never throws. -/
noncomputable def _calculateCorrelation (x y : List Rat) : Real :=
  let n := min x.length y.length
  if n < 2 then 0
  else if corrVariance x n = 0 ∨ corrVariance y n = 0 then 0
  else ((corrNumerator x y n : Rat) : Real) /
    Real.sqrt (((corrVariance x n * corrVariance y n : Rat) : Real))

end MarketSentimentAnalyzer

/-- A JavaScript number that may be non-finite: `none` stands for NaN
(or an infinity produced by dividing a nonzero value by zero). -/
abbrev JNum := Option Rat

/-- JavaScript addition on possibly non-finite numbers. -/
def jadd (a b : JNum) : JNum := do pure ((← a) + (← b))

/-- JavaScript subtraction on possibly non-finite numbers. -/
def jsub (a b : JNum) : JNum := do pure ((← a) - (← b))

/-- JavaScript multiplication on possibly non-finite numbers
(multiplying with an absent field, i.e. undefined, gives NaN, which is
also `none`). -/
def jmul (a b : JNum) : JNum := do pure ((← a) * (← b))

/-- JavaScript division on possibly non-finite numbers: dividing by
zero gives NaN or an infinity, both collapsed to `none`. -/
def jdiv (a b : JNum) : JNum := do
  let x ← a
  let y ← b
  if y = 0 then none else pure (x / y)

/-- JavaScript strict greater-than: any comparison with NaN is false. -/
def jgt (a b : JNum) : Bool :=
  match a, b with
  | some x, some y => decide (y < x)
  | _, _ => false

/-- Keys of a JavaScript object in insertion order: first occurrences,
in order, of the listed keys. -/
def firstUniques {α : Type} [DecidableEq α] (l : List α) : List α :=
  l.foldl (fun acc k => if k ∈ acc then acc else acc ++ [k]) []

/-- The numerator weight lookup of weightedVotingConsensus:
weights[signal.agentId] || 1, which falls back to 1 both when the key
is absent and when the stored weight is 0 (both are falsy). -/
def jsOr1 (o : Option Rat) : Rat :=
  match o with
  | some v => if v = 0 then 1 else v
  | none => 1

/-- Sum of a list of JavaScript numbers: NaN (an absent weight) makes
the whole sum NaN. -/
def optSum (l : List (Option Rat)) : JNum :=
  l.foldr (fun o acc => jadd o acc) (some 0)

/-- One entry of the array returned by weightedVotingConsensus. -/
structure VoteResult where
  asset : String
  direction : Direction
  weightedConfidence : Rat
  votes : Nat
  signals : List Signal
  consensusConfidence : JNum
deriving DecidableEq

/-- Sort key used to model Array.prototype.sort with the comparator
(a, b) => b.consensusConfidence - a.consensusConfidence.  A NaN
consensusConfidence would make the comparator return NaN, for which the
engine order is unspecified; the claims under study only apply when
every confidence is a number, which the `getD 0` default leaves
unchanged. -/
def ccKey (g : VoteResult) : Rat := g.consensusConfidence.getD 0

/-- The descending comparison used to sort the voting results. -/
def voteLE (a b : VoteResult) : Prop := ccKey b ≤ ccKey a

instance : DecidableRel voteLE := fun a b => by
  unfold voteLE; infer_instance

instance : IsTotal VoteResult voteLE :=
  ⟨fun a b => le_total (ccKey b) (ccKey a)⟩

instance : IsTrans VoteResult voteLE :=
  ⟨fun _ _ _ h1 h2 => le_trans h2 h1⟩

/-- The tally group built by weightedVotingConsensus for one
(asset, direction) key, before and after the consensusConfidence pass:
weightedConfidence sums confidence times (weights[agentId] || 1) over
the group, votes counts the group, and consensusConfidence divides by
the sum of the raw weights[agentId] (no default: an absent weight makes
the denominator NaN). -/
def voteGroup (signals : List Signal) (weights : String → Option Rat)
    (k : String × Direction) : VoteResult :=
  let group := signals.filter fun s => decide ((s.asset, s.direction) = k)
  let wc := (group.map fun s => s.confidence * jsOr1 (weights s.agentId)).sum
  let denom := optSum (group.map fun s => weights s.agentId)
  { asset := k.1
    direction := k.2
    weightedConfidence := wc
    votes := group.length
    signals := group
    consensusConfidence := jdiv (some wc) denom }

/-- weightedVotingConsensus from consensus-mechanisms.md: tally the
signals by (asset, direction) in first-occurrence order, attach the
consensusConfidence quotient, and sort descending by it.  (The source
keys the tally object by the string asset + "-" + direction; since
direction is always "up" or "down" those keys are in bijection with the
pairs used here.) -/
def weightedVotingConsensus (signals : List Signal)
    (weights : String → Option Rat) : List VoteResult :=
  let keys := firstUniques (signals.map fun s => (s.asset, s.direction))
  List.insertionSort voteLE (keys.map (voteGroup signals weights))

/-- updateBayesianProbability from consensus-mechanisms.md:
(likelihood * prior) / (likelihood * prior + (1-likelihood) * (1-prior)). -/
def updateBayesianProbability (prior likelihood : JNum) : JNum :=
  jdiv (jmul likelihood prior)
    (jadd (jmul likelihood prior) (jmul (jsub (some 1) likelihood) (jsub (some 1) prior)))

/-- One Bayesian update for a single signal on the state
(posteriorUp, posteriorDown): the adjusted confidence is
signal.confidence * signal.agentAccuracy (NaN when the accuracy is
absent); the posterior matching the direction is updated and the other
one is set to its complement. -/
def bayesStep (st : JNum × JNum) (s : Signal) : JNum × JNum :=
  let adjustedConfidence := jmul (some s.confidence) s.agentAccuracy
  match s.direction with
  | .up =>
    let pUp := updateBayesianProbability st.1 adjustedConfidence
    (pUp, jsub (some 1) pUp)
  | .down =>
    let pDown := updateBayesianProbability st.2 adjustedConfidence
    (jsub (some 1) pDown, pDown)

/-- The posteriors of one asset after processing its signals in input
order, starting from the uninformative prior (0.5, 0.5). -/
def bayesPosteriors (sigs : List Signal) : JNum × JNum :=
  sigs.foldl bayesStep (some (1/2), some (1/2))

/-- One entry of the array returned by bayesianAggregation. -/
structure AssetPosterior where
  asset : String
  posteriorUp : JNum
  posteriorDown : JNum
  consensusDirection : Direction
  consensusConfidence : JNum
deriving DecidableEq

/-- bayesianAggregation from consensus-mechanisms.md: group the signals
by asset (insertion order), fold the Bayesian update over each group,
then pick the direction with the larger posterior.  The codomain is an
Except so that the error channel claimed by the specification is
statable; the source function contains no throw, so every path returns
Except.ok. -/
def bayesianAggregation (signals : List Signal) :
    Except String (List AssetPosterior) :=
  Except.ok <| (firstUniques (signals.map Signal.asset)).map fun a =>
    let sigs := signals.filter fun s => decide (s.asset = a)
    let post := bayesPosteriors sigs
    if jgt post.1 post.2 then
      { asset := a, posteriorUp := post.1, posteriorDown := post.2
        consensusDirection := .up, consensusConfidence := post.1 }
    else
      { asset := a, posteriorUp := post.1, posteriorDown := post.2
        consensusDirection := .down, consensusConfidence := post.2 }

/-- The environment of one SentimentAnalyzer.analyzeSentiment call on a
cold cache: whether the lunarcrush adapter is configured, the outcome of
each per-source analyzer call (`none` models the awaited call throwing,
which the source catches and turns into a skipped source), and the
normalized per-source weights held by the instance. -/
structure AnalyzerEnv where
  hasLunarcrush : Bool
  socialResult : Option SourceData
  newsResult : Option SourceData
  marketResult : Option SourceData
  weightSocial : Rat
  weightNews : Rat
  weightMarket : Rat
deriving DecidableEq

namespace SentimentAnalyzer

/-- One guarded source-collection block of analyzeSentiment: when the
source is requested and the adapter is present, a successful analyzer
call appends its datum and adds the source weight; a throwing call is
caught and skipped; otherwise the accumulator is unchanged. -/
def collectSource (env : AnalyzerEnv) (sources : List String) (name : String)
    (result : Option SourceData) (weight : Rat)
    (acc : List (String × SourceData) × Rat) : List (String × SourceData) × Rat :=
  if name ∈ sources ∧ env.hasLunarcrush then
    match result with
    | some d => (acc.1 ++ [(name, d)], acc.2 + weight)
    | none => acc
  else acc

/-- SentimentAnalyzer.analyzeSentiment on a cold cache: collect the
social, news and market sources in that order, return null (modelled as
Except.ok none) when no source produced data, otherwise the processed
FusionResult.  The codomain is an Except so that the error channel
claimed by the specification is statable; the method catches every
per-source error and contains no throw of its own, so every path
returns Except.ok. -/
def analyzeSentiment (env : AnalyzerEnv) (sources : List String) :
    Except String (Option SentimentModel.FusionResult) :=
  let acc0 : List (String × SourceData) × Rat := ([], 0)
  let acc1 := collectSource env sources "social" env.socialResult env.weightSocial acc0
  let acc2 := collectSource env sources "news" env.newsResult env.weightNews acc1
  let acc3 := collectSource env sources "market" env.marketResult env.weightMarket acc2
  if acc3.1.isEmpty then Except.ok none
  else Except.ok (some (SentimentModel.process acc3.1
    [("social", env.weightSocial), ("news", env.weightNews), ("market", env.weightMarket)]
    acc3.2))

end SentimentAnalyzer

/-- The collaborators of refineSwarmDecision: the opinions collected
from the agents for one round (as a function of the consensus they
review), the caller-supplied aggregation, and the convergence
predicate. -/
structure Swarm (C O : Type) where
  agentOpinions : C → List O
  aggregateRefinements : C → List O → C
  hasConverged : C → Bool

/-- The refinement loop of refineSwarmDecision: up to the given number
of rounds, aggregate the opinions of every agent into a revised
consensus and stop early when the convergence predicate holds.  Returns
the final consensus and the number of rounds actually executed. -/
def runRounds {C O : Type} (swarm : Swarm C O) : C → Nat → C × Nat
  | c, 0 => (c, 0)
  | c, n + 1 =>
    let revised := swarm.aggregateRefinements c (swarm.agentOpinions c)
    if swarm.hasConverged revised then (revised, 1)
    else
      let rest := runRounds swarm revised n
      (rest.1, rest.2 + 1)

/-- refineSwarmDecision from consensus-mechanisms.md.  The loop runs to
completion (or early convergence), but the return statement then reads
`round + 1`, where `round` is the let binding of the for-loop header:
that binding is scoped to the loop body, so evaluating the return
object throws a ReferenceError in JavaScript.  The embedding therefore
performs the rounds and then returns that error on every input. -/
def refineSwarmDecision {C O : Type} (swarm : Swarm C O) (initialConsensus : C)
    (refinementRounds : Nat) : Except String (C × Nat × Bool) :=
  let _finalState := runRounds swarm initialConsensus refinementRounds
  Except.error "ReferenceError: round is not defined"

/-- A swarm over rational consensus values whose convergence predicate
never holds: it revises the consensus by adding 1 each round. -/
def swarmNC : Swarm Rat Rat :=
  { agentOpinions := fun c => [c]
    aggregateRefinements := fun c _ => c + 1
    hasConverged := fun _ => false }

/-- The agent-weight table of the C4 witness scenario: agent A has
weight 2 and agent B weight 1. -/
def witnessWeights : String → Option Rat :=
  fun a => if a = "A" then some 2 else if a = "B" then some 1 else none

/-- The two-signal scenario of the C4 witness: both agents vote BTC up
with confidences 0.9 and 0.6. -/
def witnessSignals : List Signal :=
  [⟨"BTC", Direction.up, "A", 9/10, some 1⟩, ⟨"BTC", Direction.up, "B", 3/5, some 1⟩]

/-! ### Helper lemmas -/

theorem jadd_some (a b : Rat) : jadd (some a) (some b) = some (a + b) := rfl

theorem jsub_some (a b : Rat) : jsub (some a) (some b) = some (a - b) := rfl

theorem jmul_some (a b : Rat) : jmul (some a) (some b) = some (a * b) := rfl

theorem jmul_none (a : JNum) : jmul a none = none := by cases a <;> rfl

theorem jmul_none_left (a : JNum) : jmul none a = none := rfl

theorem jdiv_none_left (a : JNum) : jdiv none a = none := rfl

theorem jsub_none (a : JNum) : jsub a none = none := by cases a <;> rfl

theorem jdiv_some_of_ne (a b : Rat) (hb : b ≠ 0) :
    jdiv (some a) (some b) = some (a / b) := by
  simp [jdiv, hb]

theorem foldl_firstUniques_mem {α : Type} [DecidableEq α] {x : α} :
    ∀ (l acc : List α),
      x ∈ l.foldl (fun acc k => if k ∈ acc then acc else acc ++ [k]) acc ↔
        x ∈ acc ∨ x ∈ l := by
  intro l
  induction l with
  | nil => simp
  | cons k t ih =>
    intro acc
    simp only [List.foldl_cons, ih]
    by_cases hk : k ∈ acc
    · simp [hk]
      constructor
      · rintro (h | h)
        · exact Or.inl h
        · exact Or.inr (Or.inr h)
      · rintro (h | h | h)
        · exact Or.inl h
        · exact Or.inl (h ▸ hk)
        · exact Or.inr h
    · simp [hk, List.mem_append]
      tauto

theorem mem_firstUniques {α : Type} [DecidableEq α] {x : α} {l : List α} :
    x ∈ firstUniques l ↔ x ∈ l := by
  unfold firstUniques
  rw [foldl_firstUniques_mem]
  simp

theorem jsRound_bounds (lo hi q : Rat) (h0 : lo ≤ q) (h1 : q ≤ hi) :
    ⌊lo + 1/2⌋ ≤ jsRound q ∧ jsRound q ≤ ⌊hi + 1/2⌋ := by
  unfold jsRound
  constructor
  · exact Int.floor_le_floor (by linarith)
  · exact Int.floor_le_floor (by linarith)

theorem round2_mem_unit {q : Rat} (h0 : 0 ≤ q) (h1 : q ≤ 1) :
    0 ≤ round2 q ∧ round2 q ≤ 1 := by
  have hb := jsRound_bounds 0 100 (q * 100) (by linarith) (by linarith)
  have hlo : (⌊(0 : Rat) + 1/2⌋ : Int) = 0 := by norm_num
  have hhi : (⌊(100 : Rat) + 1/2⌋ : Int) = 100 := by
    norm_num [Int.floor_eq_iff]
  rw [hlo, hhi] at hb
  unfold round2
  constructor
  · have : (0 : Rat) ≤ (jsRound (q * 100) : Rat) := by exact_mod_cast hb.1
    linarith
  · have : (jsRound (q * 100) : Rat) ≤ 100 := by exact_mod_cast hb.2
    linarith

theorem filter_ratio_mem_unit (l : List Rat) (p : Rat → Bool) :
    0 ≤ ((l.filter p).length : Rat) / ((max 1 l.length : Nat) : Rat) ∧
      ((l.filter p).length : Rat) / ((max 1 l.length : Nat) : Rat) ≤ 1 := by
  have hlen : ((l.filter p).length : Rat) ≤ ((max 1 l.length : Nat) : Rat) := by
    have h1 : (l.filter p).length ≤ l.length := List.length_filter_le _ _
    have h2 : l.length ≤ max 1 l.length := le_max_right _ _
    exact_mod_cast le_trans h1 h2
  have hpos : (0 : Rat) < ((max 1 l.length : Nat) : Rat) := by
    have h1 : (1 : Nat) ≤ max 1 l.length := le_max_left _ _
    exact_mod_cast lt_of_lt_of_le Nat.zero_lt_one h1
  constructor
  · exact div_nonneg (by positivity) (le_of_lt hpos)
  · exact (div_le_one hpos).mpr hlen

theorem trendAgreement_mem_unit (sentimentData : List (String × SourceData)) :
    0 ≤ SentimentModel.trendAgreement sentimentData ∧
      SentimentModel.trendAgreement sentimentData ≤ 1 := by
  unfold SentimentModel.trendAgreement
  exact filter_ratio_mem_unit _ _

theorem rawConfidence_mem_unit (sentimentData : List (String × SourceData))
    (h : sentimentData.length ≤ 3) :
    0 ≤ SentimentModel.rawConfidence sentimentData ∧
      SentimentModel.rawConfidence sentimentData ≤ 1 := by
  obtain ⟨ha0, ha1⟩ := trendAgreement_mem_unit sentimentData
  have hn : ((sentimentData.length : Rat)) ≤ 3 := by exact_mod_cast h
  have hn0 : (0 : Rat) ≤ (sentimentData.length : Rat) := by positivity
  unfold SentimentModel.rawConfidence
  constructor
  · nlinarith
  · nlinarith

/-! ### Claim C1 -/

/-- C1: if the total weight passed to SentimentModel.process is at most
0, then for every sentimentData and weights input it returns the
neutral FusionResult with score 50, normalized 0.5, trend stable,
confidence 0 and an empty breakdown.  The embedding is a total
function, so in particular no exception is possible on this path. -/
theorem process_neutral_on_nonpositive_weight
    (sentimentData : List (String × SourceData)) (weights : List (String × Rat))
    (totalWeight : Rat) (h : totalWeight ≤ 0) :
    SentimentModel.process sentimentData weights totalWeight =
      { score := 50, normalized := 1/2, trend := Trend.stable,
        breakdown := [], confidence := 0 } := by
  unfold SentimentModel.process
  rw [if_pos h]
  norm_num [SentimentModel.defaultScore]

/-- Witness for C1 at a concrete input. -/
theorem process_neutral_on_nonpositive_weight_witness :
    (0 : Rat) ≤ 0 ∧
      SentimentModel.process [("social", ⟨80, Trend.rising⟩)] [("social", 1)] 0 =
        { score := 50, normalized := 1/2, trend := Trend.stable,
          breakdown := [], confidence := 0 } :=
  ⟨le_refl 0,
    process_neutral_on_nonpositive_weight [("social", ⟨80, Trend.rising⟩)]
      [("social", 1)] 0 (le_refl 0)⟩

/-! ### Claim C6 -/

/-- C6 counterexample: with four sources present (all stable, so every
trend vote agrees), the confidence computed by SentimentModel.process is
round((4/3)*0.5 + 1*0.5, 2) = 1.17, strictly greater than 1: the
confidence of a FusionResult does not always lie in [0, 1]. -/
theorem process_confidence_above_one_cex :
    1 < (SentimentModel.process
      [("a", ⟨50, Trend.stable⟩), ("b", ⟨50, Trend.stable⟩),
       ("c", ⟨50, Trend.stable⟩), ("d", ⟨50, Trend.stable⟩)]
      [("a", 1)] 1).confidence := by
  norm_num [SentimentModel.process, round2, jsRound, SentimentModel.rawConfidence,
    SentimentModel.trendAgreement, SentimentModel.trendDirection,
    SentimentModel.trendValues, SentimentModel.trendVote, SentimentModel.trendThreshold]

/-- C6 amended: whenever at most three sources are present in
sentimentData (the situation the analyzer can produce, since it only
feeds social, news and market), the confidence of the FusionResult lies
in [0, 1]; with four or more sources the unclamped formula can exceed 1. -/
theorem process_confidence_mem_unit
    (sentimentData : List (String × SourceData)) (weights : List (String × Rat))
    (totalWeight : Rat) (h : sentimentData.length ≤ 3) :
    0 ≤ (SentimentModel.process sentimentData weights totalWeight).confidence ∧
      (SentimentModel.process sentimentData weights totalWeight).confidence ≤ 1 := by
  unfold SentimentModel.process
  by_cases htw : totalWeight ≤ 0
  · rw [if_pos htw]
    norm_num
  · rw [if_neg htw]
    obtain ⟨h0, h1⟩ := rawConfidence_mem_unit sentimentData h
    exact round2_mem_unit h0 h1

/-- Witness for C6 (amended) at a concrete input. -/
theorem process_confidence_mem_unit_witness :
    ([("social", (⟨80, Trend.rising⟩ : SourceData))].length ≤ 3) ∧
      (0 ≤ (SentimentModel.process [("social", ⟨80, Trend.rising⟩)]
          [("social", 1)] 1).confidence ∧
        (SentimentModel.process [("social", ⟨80, Trend.rising⟩)]
          [("social", 1)] 1).confidence ≤ 1) :=
  ⟨by decide,
    process_confidence_mem_unit [("social", ⟨80, Trend.rising⟩)] [("social", 1)] 1
      (by decide)⟩

/-! ### Claim C2 -/

theorem bayesStep_absorb_none (s : Signal) : bayesStep (none, none) s = (none, none) := by
  cases s with
  | mk asset direction agentId confidence agentAccuracy =>
    cases direction <;>
      simp [bayesStep, updateBayesianProbability, jmul, jdiv, jadd, jsub]

theorem bayesStep_missing_accuracy (st : JNum × JNum) (s : Signal)
    (h : s.agentAccuracy = none) : bayesStep st s = (none, none) := by
  cases s with
  | mk asset direction agentId confidence agentAccuracy =>
    cases h
    cases direction <;>
      simp [bayesStep, updateBayesianProbability, jmul, jdiv, jadd, jsub]

theorem bayes_foldl_absorb_none (sigs : List Signal) :
    sigs.foldl bayesStep (none, none) = (none, none) := by
  induction sigs with
  | nil => rfl
  | cons s t ih => rw [List.foldl_cons, bayesStep_absorb_none, ih]

theorem bayes_foldl_missing_accuracy (sigs : List Signal) (init : JNum × JNum)
    (h : ∃ s ∈ sigs, s.agentAccuracy = none) :
    sigs.foldl bayesStep init = (none, none) := by
  induction sigs generalizing init with
  | nil => simp at h
  | cons s t ih =>
    rw [List.foldl_cons]
    obtain ⟨s0, hs0, hacc⟩ := h
    rcases List.mem_cons.mp hs0 with heq | hmem
    · subst heq
      rw [bayesStep_missing_accuracy init s0 hacc, bayes_foldl_absorb_none]
    · exact ih _ ⟨s0, hmem, hacc⟩

/-- C2 counterexample: a Bayesian run over a single signal whose
agentAccuracy field is absent does not fail: it returns Except.ok with
NaN posteriors (the multiplication confidence * undefined gives NaN,
which propagates), instead of surfacing a configuration error. -/
theorem bayesianAggregation_missing_accuracy_cex :
    bayesianAggregation [⟨"BTC", Direction.up, "agent1", 4/5, none⟩] =
      Except.ok [⟨"BTC", none, none, Direction.down, none⟩] := by
  simp [bayesianAggregation, firstUniques, bayesPosteriors, bayesStep,
    updateBayesianProbability, jmul, jdiv, jadd, jsub, jgt]

/-- C2 amended: for every signal whose agentAccuracy field is absent,
bayesianAggregation does not throw: it still returns Except.ok, and the
posteriors of the asset carrying that signal are NaN (modelled as none)
because the adjusted confidence is NaN; no default accuracy is
substituted (the posteriors are poisoned rather than computed from a
fallback). -/
theorem bayesianAggregation_missing_accuracy (signals : List Signal) (s : Signal)
    (hs : s ∈ signals) (hacc : s.agentAccuracy = none) :
    ∃ rs, bayesianAggregation signals = Except.ok rs ∧
      ∃ r ∈ rs, r.asset = s.asset ∧ r.posteriorUp = none ∧ r.posteriorDown = none := by
  refine ⟨_, rfl, ?_⟩
  have hmem : s.asset ∈ firstUniques (signals.map Signal.asset) :=
    mem_firstUniques.mpr (List.mem_map_of_mem Signal.asset hs)
  have hpost : bayesPosteriors (signals.filter fun t => decide (t.asset = s.asset)) =
      (none, none) := by
    apply bayes_foldl_missing_accuracy
    exact ⟨s, List.mem_filter.mpr ⟨hs, by simp⟩, hacc⟩
  refine ⟨_, List.mem_map_of_mem _ hmem, ?_⟩
  simp [hpost, jgt]

/-- Witness for C2 (amended) at a concrete input. -/
theorem bayesianAggregation_missing_accuracy_witness :
    ((⟨"ETH", Direction.down, "agent2", 1/2, none⟩ : Signal) ∈
        [(⟨"ETH", Direction.down, "agent2", 1/2, none⟩ : Signal)]) ∧
      ∃ rs, bayesianAggregation [⟨"ETH", Direction.down, "agent2", 1/2, none⟩] =
          Except.ok rs ∧
        ∃ r ∈ rs, r.asset = (⟨"ETH", Direction.down, "agent2", 1/2, none⟩ : Signal).asset ∧
          r.posteriorUp = none ∧ r.posteriorDown = none :=
  ⟨List.mem_singleton.mpr rfl,
    bayesianAggregation_missing_accuracy _ _ (List.mem_singleton.mpr rfl) rfl⟩

/-! ### Claim C5 -/

theorem updateBayesianProbability_interior {p l : Rat}
    (hp0 : 0 < p) (hp1 : p < 1) (hl0 : 0 < l) (hl1 : l < 1) :
    updateBayesianProbability (some p) (some l) =
      some (l * p / (l * p + (1 - l) * (1 - p))) ∧
      0 < l * p / (l * p + (1 - l) * (1 - p)) ∧
      l * p / (l * p + (1 - l) * (1 - p)) < 1 := by
  have hnum : 0 < l * p := mul_pos hl0 hp0
  have hcompl : 0 < (1 - l) * (1 - p) := mul_pos (by linarith) (by linarith)
  have hden : 0 < l * p + (1 - l) * (1 - p) := by linarith
  refine ⟨?_, div_pos hnum hden, (div_lt_one hden).mpr (by linarith)⟩
  unfold updateBayesianProbability
  simp only [jmul_some, jsub_some, jadd_some]
  exact jdiv_some_of_ne _ _ (ne_of_gt hden)

theorem bayes_foldl_interior (sigs : List Signal)
    (h : ∀ s ∈ sigs, ∃ a, s.agentAccuracy = some a ∧
      0 < s.confidence * a ∧ s.confidence * a < 1) :
    ∀ p : Rat, 0 < p → p < 1 →
      ∃ q : Rat, 0 < q ∧ q < 1 ∧
        sigs.foldl bayesStep (some p, some (1 - p)) = (some q, some (1 - q)) := by
  induction sigs with
  | nil => exact fun p hp0 hp1 => ⟨p, hp0, hp1, rfl⟩
  | cons s t ih =>
    intro p hp0 hp1
    obtain ⟨a, hacc, hl0, hl1⟩ := h s (List.mem_cons_self s t)
    have ht : ∀ s0 ∈ t, ∃ a0, s0.agentAccuracy = some a0 ∧
        0 < s0.confidence * a0 ∧ s0.confidence * a0 < 1 :=
      fun s0 hs0 => h s0 (List.mem_cons_of_mem s hs0)
    rw [List.foldl_cons]
    cases hdir : s.direction with
    | up =>
      obtain ⟨hupd, hq0, hq1⟩ :=
        updateBayesianProbability_interior hp0 hp1 hl0 hl1
      have hstep : bayesStep (some p, some (1 - p)) s =
          (some (s.confidence * a * p / (s.confidence * a * p +
            (1 - s.confidence * a) * (1 - p))),
           some (1 - s.confidence * a * p / (s.confidence * a * p +
            (1 - s.confidence * a) * (1 - p)))) := by
        simp only [bayesStep, hdir, hacc, jmul_some]
        rw [hupd, jsub_some]
      rw [hstep]
      exact (ih ht) _ hq0 hq1
    | down =>
      have hpd0 : 0 < 1 - p := by linarith
      have hpd1 : 1 - p < 1 := by linarith
      obtain ⟨hupd, hq0, hq1⟩ :=
        updateBayesianProbability_interior hpd0 hpd1 hl0 hl1
      have hstep : bayesStep (some p, some (1 - p)) s =
          (some (1 - s.confidence * a * (1 - p) / (s.confidence * a * (1 - p) +
            (1 - s.confidence * a) * (1 - (1 - p)))),
           some (s.confidence * a * (1 - p) / (s.confidence * a * (1 - p) +
            (1 - s.confidence * a) * (1 - (1 - p))))) := by
        simp only [bayesStep, hdir, hacc, jmul_some]
        rw [hupd, jsub_some]
      rw [hstep]
      set d := s.confidence * a * (1 - p) / (s.confidence * a * (1 - p) +
        (1 - s.confidence * a) * (1 - (1 - p))) with hd
      have hrw : (some (1 - d), some d) = (some (1 - d), some (1 - (1 - d))) := by
        norm_num
      rw [hrw]
      exact (ih ht) _ (by linarith) (by linarith)

/-- C5 counterexample: two in-range signals (confidence 1 then 0, both
with accuracy 1) drive the posterior pair to (NaN, NaN): the first
update sends posteriorUp to 1, and the second produces the quotient
0/0.  The posterior sum is then NaN, not 1 under any rounding. -/
theorem bayesPosteriors_sum_cex :
    jadd (bayesPosteriors [⟨"A", Direction.up, "X", 1, some 1⟩,
        ⟨"A", Direction.up, "X", 0, some 1⟩]).1
      (bayesPosteriors [⟨"A", Direction.up, "X", 1, some 1⟩,
        ⟨"A", Direction.up, "X", 0, some 1⟩]).2 ≠ some 1 := by
  have h1 : bayesStep (some (1/2), some (1/2))
      (⟨"A", Direction.up, "X", 1, some 1⟩ : Signal) = (some 1, some 0) := by
    unfold bayesStep updateBayesianProbability
    norm_num [jmul_some, jadd_some, jsub_some, jdiv]
  have h2 : bayesStep (some 1, some 0)
      (⟨"A", Direction.up, "X", 0, some 1⟩ : Signal) = (none, none) := by
    unfold bayesStep updateBayesianProbability
    norm_num [jmul_some, jadd_some, jsub_some, jsub_none, jdiv]
  have hp : bayesPosteriors [⟨"A", Direction.up, "X", 1, some 1⟩,
      ⟨"A", Direction.up, "X", 0, some 1⟩] = (none, none) := by
    unfold bayesPosteriors
    rw [List.foldl_cons, h1, List.foldl_cons, h2, List.foldl_nil]
  rw [hp]
  simp [jadd]

/-- C5 amended: starting from the uninformative prior (0.5, 0.5), if
every adjusted confidence (signal.confidence * signal.agentAccuracy)
lies strictly between 0 and 1 (so the update denominator never
vanishes), then posteriorUp + posteriorDown equals 1 exactly after
every update (stated for the whole fold, with the input list ranging
over all such signal sequences, hence over every prefix), and with no
signals both posteriors remain exactly 0.5.  At the excluded boundary
the sum can degenerate to NaN, as the counterexample shows. -/
theorem bayesPosteriors_sum_one (sigs : List Signal)
    (h : ∀ s ∈ sigs, ∃ a, s.agentAccuracy = some a ∧
      0 < s.confidence * a ∧ s.confidence * a < 1) :
    jadd (bayesPosteriors sigs).1 (bayesPosteriors sigs).2 = some 1 ∧
      bayesPosteriors [] = (some (1/2), some (1/2)) := by
  constructor
  · obtain ⟨q, hq0, hq1, hfold⟩ :=
      bayes_foldl_interior sigs h (1/2) (by norm_num) (by norm_num)
    have hhalf : (some ((1 : Rat)/2), some ((1 : Rat)/2)) =
        (some ((1 : Rat)/2), some (1 - (1 : Rat)/2)) := by norm_num
    unfold bayesPosteriors
    rw [hhalf, hfold]
    rw [jadd_some]
    norm_num
  · rfl

/-- Witness for C5 (amended) at a concrete input: one signal with
confidence 0.8 and accuracy 0.75 (adjusted confidence 0.6). -/
theorem bayesPosteriors_sum_one_witness :
    (∀ s ∈ [(⟨"BTC", Direction.up, "A", 4/5, some (3/4)⟩ : Signal)],
      ∃ a, s.agentAccuracy = some a ∧
        0 < s.confidence * a ∧ s.confidence * a < 1) ∧
      (jadd (bayesPosteriors [(⟨"BTC", Direction.up, "A", 4/5, some (3/4)⟩ : Signal)]).1
          (bayesPosteriors [(⟨"BTC", Direction.up, "A", 4/5, some (3/4)⟩ : Signal)]).2 = some 1 ∧
        bayesPosteriors [] = (some (1/2), some (1/2))) := by
  have hyp : ∀ s ∈ [(⟨"BTC", Direction.up, "A", 4/5, some (3/4)⟩ : Signal)],
      ∃ a, s.agentAccuracy = some a ∧
        0 < s.confidence * a ∧ s.confidence * a < 1 := by
    intro s hs
    rw [List.mem_singleton] at hs
    subst hs
    exact ⟨3/4, rfl, by norm_num, by norm_num⟩
  exact ⟨hyp, bayesPosteriors_sum_one _ hyp⟩

/-! ### Claims C7 and C10 -/

theorem collectSource_skip (env : AnalyzerEnv) (sources : List String)
    (name : String) (result : Option SourceData) (weight : Rat)
    (acc : List (String × SourceData) × Rat)
    (h : name ∈ sources ∧ env.hasLunarcrush = true → result = none) :
    SentimentAnalyzer.collectSource env sources name result weight acc = acc := by
  unfold SentimentAnalyzer.collectSource
  by_cases hc : name ∈ sources ∧ env.hasLunarcrush = true
  · rw [if_pos hc, h hc]
  · rw [if_neg hc]

/-- C7 counterexample: with the lunarcrush adapter absent (but every
per-source analyzer able to succeed, were it called), analyzeSentiment
does not surface any error to the caller: it skips every source and
returns null (Except.ok none), so the claimed missing-adapter error
never reaches the call boundary. -/
theorem analyzeSentiment_missing_adapter_cex :
    SentimentAnalyzer.analyzeSentiment
      ⟨false, some ⟨80, Trend.rising⟩, some ⟨60, Trend.stable⟩,
        some ⟨40, Trend.falling⟩, 3/5, 3/10, 1/10⟩
      ["social", "news", "market"] = Except.ok none := rfl

/-- C7 amended: when the lunarcrush adapter is not configured,
analyzeSentiment surfaces no error at the call boundary: every source
block is skipped by the adapter guard and the method returns null
(modelled as Except.ok none), with no retry.  The missing-adapter
condition is visible to the caller only as this null result. -/
theorem analyzeSentiment_missing_adapter (env : AnalyzerEnv) (sources : List String)
    (h : env.hasLunarcrush = false) :
    SentimentAnalyzer.analyzeSentiment env sources = Except.ok none := by
  have hskip : ∀ (name : String) (result : Option SourceData) (weight : Rat)
      (acc : List (String × SourceData) × Rat),
      SentimentAnalyzer.collectSource env sources name result weight acc = acc := by
    intro name result weight acc
    apply collectSource_skip
    intro hc
    rw [h] at hc
    exact absurd hc.2 Bool.false_ne_true
  simp only [SentimentAnalyzer.analyzeSentiment, hskip]
  rfl

/-- Witness for C7 (amended) at a concrete input. -/
theorem analyzeSentiment_missing_adapter_witness :
    ((⟨false, none, none, none, 1, 1, 1⟩ : AnalyzerEnv).hasLunarcrush = false) ∧
      SentimentAnalyzer.analyzeSentiment ⟨false, none, none, none, 1, 1, 1⟩
        ["market"] = Except.ok none :=
  ⟨rfl, analyzeSentiment_missing_adapter ⟨false, none, none, none, 1, 1, 1⟩
    ["market"] rfl⟩

/-- C10: when every requested source fails to produce data (its
analyzer call throws, or the adapter guard skips it), analyzeSentiment
returns null (Except.ok none): neither a neutral FusionResult nor an
error, so callers must handle a null return. -/
theorem analyzeSentiment_null_when_all_fail (env : AnalyzerEnv) (sources : List String)
    (hsoc : "social" ∈ sources ∧ env.hasLunarcrush = true → env.socialResult = none)
    (hnews : "news" ∈ sources ∧ env.hasLunarcrush = true → env.newsResult = none)
    (hmkt : "market" ∈ sources ∧ env.hasLunarcrush = true → env.marketResult = none) :
    SentimentAnalyzer.analyzeSentiment env sources = Except.ok none := by
  simp only [SentimentAnalyzer.analyzeSentiment,
    collectSource_skip env sources _ _ _ _ hsoc,
    collectSource_skip env sources _ _ _ _ hnews,
    collectSource_skip env sources _ _ _ _ hmkt]
  rfl

/-- Witness for C10 at a concrete input: the adapter is present but all
three analyzer calls throw. -/
theorem analyzeSentiment_null_when_all_fail_witness :
    (("social" ∈ ["social", "news", "market"] ∧
        (⟨true, none, none, none, 3/5, 3/10, 1/10⟩ : AnalyzerEnv).hasLunarcrush = true →
          (⟨true, none, none, none, 3/5, 3/10, 1/10⟩ : AnalyzerEnv).socialResult = none)) ∧
      SentimentAnalyzer.analyzeSentiment ⟨true, none, none, none, 3/5, 3/10, 1/10⟩
        ["social", "news", "market"] = Except.ok none :=
  ⟨fun _ => rfl,
    analyzeSentiment_null_when_all_fail ⟨true, none, none, none, 3/5, 3/10, 1/10⟩
      ["social", "news", "market"] (fun _ => rfl) (fun _ => rfl) (fun _ => rfl)⟩

/-! ### Claim C9 -/

/-- C9: the refinement loop indeed performs at most refinementRounds
rounds of agent evaluation (here exactly 3 for a never-converging
swarm), but reaching the return statement raises a ReferenceError (the
for-loop variable round is read outside its scope), so the function
reports nothing at all: the code contradicts the claimed (and clearly
intended) behavior of returning a result with hasConverged = false. -/
theorem refineSwarmDecision_scope_bug :
    refineSwarmDecision swarmNC 0 3 =
        Except.error "ReferenceError: round is not defined" ∧
      (runRounds swarmNC 0 3).2 = 3 ∧
      ∀ {C O : Type} (swarm : Swarm C O) (c : C) (n : Nat),
        (runRounds swarm c n).2 ≤ n := by
  refine ⟨rfl, rfl, ?_⟩
  intro C O swarm c n
  induction n generalizing c with
  | zero => exact le_refl 0
  | succ m ih =>
    unfold runRounds
    by_cases hc : swarm.hasConverged (swarm.aggregateRefinements c (swarm.agentOpinions c)) = true
    · rw [if_pos hc]
      exact Nat.succ_le_succ (Nat.zero_le m)
    · rw [if_neg hc]
      exact Nat.succ_le_succ (ih _)

/-! ### Claim C4 -/

theorem voteSums (weights : String → Option Rat) (l : List Signal)
    (h : ∀ s ∈ l, (0 ≤ s.confidence ∧ s.confidence ≤ 1) ∧
      ∃ w, weights s.agentId = some w ∧ 0 < w) :
    ∃ D : Rat, optSum (l.map fun s => weights s.agentId) = some D ∧
      0 ≤ D ∧ (l ≠ [] → 0 < D) ∧
      0 ≤ (l.map fun s => s.confidence * jsOr1 (weights s.agentId)).sum ∧
      (l.map fun s => s.confidence * jsOr1 (weights s.agentId)).sum ≤ D := by
  induction l with
  | nil =>
    exact ⟨0, rfl, le_refl 0, fun hne => absurd rfl hne, le_refl 0, le_refl 0⟩
  | cons s t ih =>
    obtain ⟨⟨hc0, hc1⟩, w, hw, hwpos⟩ := h s (List.mem_cons_self s t)
    obtain ⟨D, hD, hD0, _hDpos, hs0, hsD⟩ :=
      ih (fun s0 hmem => h s0 (List.mem_cons_of_mem s hmem))
    have hj : jsOr1 (weights s.agentId) = w := by
      rw [hw]
      simp [jsOr1, ne_of_gt hwpos]
    refine ⟨w + D, ?_, by linarith, fun _ => by linarith, ?_, ?_⟩
    · show jadd (weights s.agentId) (optSum (t.map fun s => weights s.agentId)) =
        some (w + D)
      rw [hw, hD, jadd_some]
    · simp only [List.map_cons, List.sum_cons, hj]
      nlinarith
    · simp only [List.map_cons, List.sum_cons, hj]
      nlinarith

/-- C4: for signals whose confidences lie in [0,1] and an agent-weight
table assigning a positive weight to every agentId appearing in the
signals, every group produced by weightedVotingConsensus carries a
consensusConfidence in [0,1] (in particular a number, not NaN), and the
output is sorted in descending order of consensusConfidence. -/
theorem weightedVotingConsensus_unit_sorted (signals : List Signal)
    (weights : String → Option Rat)
    (h : ∀ s ∈ signals, (0 ≤ s.confidence ∧ s.confidence ≤ 1) ∧
      ∃ w, weights s.agentId = some w ∧ 0 < w) :
    (∀ g ∈ weightedVotingConsensus signals weights,
        ∃ q, g.consensusConfidence = some q ∧ 0 ≤ q ∧ q ≤ 1) ∧
      List.Sorted voteLE (weightedVotingConsensus signals weights) := by
  constructor
  · intro g hg
    unfold weightedVotingConsensus at hg
    have hmem : g ∈ (firstUniques (signals.map fun s => (s.asset, s.direction))).map
        (voteGroup signals weights) :=
      (List.perm_insertionSort voteLE _).mem_iff.mp hg
    obtain ⟨k, hk, hgk⟩ := List.mem_map.mp hmem
    obtain ⟨s0, hs0, hkey⟩ := List.mem_map.mp (mem_firstUniques.mp hk)
    set group := signals.filter fun s => decide ((s.asset, s.direction) = k) with hgroup
    have hsub : ∀ s ∈ group, (0 ≤ s.confidence ∧ s.confidence ≤ 1) ∧
        ∃ w, weights s.agentId = some w ∧ 0 < w :=
      fun s hs => h s (List.mem_of_mem_filter hs)
    obtain ⟨D, hD, _hD0, hDpos, hwc0, hwcD⟩ := voteSums weights group hsub
    have hne : group ≠ [] := by
      intro hnil
      have : s0 ∈ group := List.mem_filter.mpr ⟨hs0, by simp [hkey]⟩
      rw [hnil] at this
      exact absurd this (List.not_mem_nil s0)
    have hDpos2 := hDpos hne
    have hcc : g.consensusConfidence =
        some ((group.map fun s => s.confidence * jsOr1 (weights s.agentId)).sum / D) := by
      rw [← hgk]
      show jdiv (some (group.map fun s =>
        s.confidence * jsOr1 (weights s.agentId)).sum) (optSum (group.map fun s => weights s.agentId)) =
          some ((group.map fun s => s.confidence * jsOr1 (weights s.agentId)).sum / D)
      rw [hD]
      exact jdiv_some_of_ne _ _ (ne_of_gt hDpos2)
    exact ⟨_, hcc, div_nonneg hwc0 (le_of_lt hDpos2),
      (div_le_one hDpos2).mpr hwcD⟩
  · exact List.sorted_insertionSort voteLE _

/-- Witness for C4 at the concrete two-agent scenario. -/
theorem weightedVotingConsensus_unit_sorted_witness :
    (∀ s ∈ witnessSignals, (0 ≤ s.confidence ∧ s.confidence ≤ 1) ∧
        ∃ w, witnessWeights s.agentId = some w ∧ 0 < w) ∧
      ((∀ g ∈ weightedVotingConsensus witnessSignals witnessWeights,
          ∃ q, g.consensusConfidence = some q ∧ 0 ≤ q ∧ q ≤ 1) ∧
        List.Sorted voteLE (weightedVotingConsensus witnessSignals witnessWeights)) := by
  have hyp : ∀ s ∈ witnessSignals, (0 ≤ s.confidence ∧ s.confidence ≤ 1) ∧
      ∃ w, witnessWeights s.agentId = some w ∧ 0 < w := by
    intro s hs
    rcases List.mem_cons.mp hs with heq | hs2
    · subst heq
      exact ⟨⟨by norm_num, by norm_num⟩, 2, rfl, by norm_num⟩
    · rcases List.mem_cons.mp hs2 with heq | hs3
      · subst heq
        exact ⟨⟨by norm_num, by norm_num⟩, 1, rfl, by norm_num⟩
      · exact absurd hs3 (List.not_mem_nil s)
  exact ⟨hyp, weightedVotingConsensus_unit_sorted witnessSignals witnessWeights hyp⟩

/-! ### Claim C8 -/

/-- C8 counterexample: the analyzer copy of the correlation,
MarketSentimentAnalyzer._calculateCorrelation, guards only n < 2: on
the two-point series x = y = [0, 1] (n = 2 < 3, nonzero variance) it
returns 1, not the neutral 0 the claim requires for n < 3. -/
theorem market_correlation_two_points_cex :
    MarketSentimentAnalyzer._calculateCorrelation [0, 1] [0, 1] ≠ 0 := by
  have hval : MarketSentimentAnalyzer._calculateCorrelation [0, 1] [0, 1] = 1 := by
    unfold MarketSentimentAnalyzer._calculateCorrelation
    have hv : corrVariance [0, 1] 2 = 1/2 := by
      norm_num [corrVariance, sampleMean, Finset.sum_range_succ]
    have hn : corrNumerator [0, 1] [0, 1] 2 = 1/2 := by
      norm_num [corrNumerator, sampleMean, Finset.sum_range_succ]
    norm_num [hv, hn]
    rw [show (4 : Real) = 2^2 by norm_num,
      Real.sqrt_sq (by norm_num : (0 : Real) ≤ 2)]
    norm_num
  rw [hval]
  norm_num

/-- C8 amended: SentimentModel.calculateCorrelation returns 0, without
throwing, whenever n = min(len x, len y) < 3 or either series has zero
variance over its first n elements; the analyzer copy
MarketSentimentAnalyzer._calculateCorrelation satisfies the same
property only with the weaker guard n < 2 (at n = 2 with nonzero
variance it returns a nonzero coefficient, see the counterexample).
Both embeddings are total functions, so neither can throw. -/
theorem correlation_neutral_guards :
    (∀ x y : List Rat,
        (min x.length y.length < 3 ∨
          corrVariance x (min x.length y.length) = 0 ∨
          corrVariance y (min x.length y.length) = 0) →
        SentimentModel.calculateCorrelation x y = 0) ∧
      (∀ x y : List Rat,
        (min x.length y.length < 2 ∨
          corrVariance x (min x.length y.length) = 0 ∨
          corrVariance y (min x.length y.length) = 0) →
        MarketSentimentAnalyzer._calculateCorrelation x y = 0) := by
  constructor
  · intro x y h
    unfold SentimentModel.calculateCorrelation
    by_cases h3 : min x.length y.length < SentimentModel.minDataPoints
    · simp [h3]
    · have hv : corrVariance x (min x.length y.length) = 0 ∨
          corrVariance y (min x.length y.length) = 0 := by
        rcases h with h | h | h
        · exact absurd h (by simpa [SentimentModel.minDataPoints] using h3)
        · exact Or.inl h
        · exact Or.inr h
      simp [h3, hv]
  · intro x y h
    unfold MarketSentimentAnalyzer._calculateCorrelation
    by_cases h2 : min x.length y.length < 2
    · simp [h2]
    · have hv : corrVariance x (min x.length y.length) = 0 ∨
          corrVariance y (min x.length y.length) = 0 := by
        rcases h with h | h | h
        · exact absurd h h2
        · exact Or.inl h
        · exact Or.inr h
      simp [h2, hv]

/-- Witness for C8 (amended) at concrete inputs: a two-point input for
the model correlation (n = 2 < 3) and a one-point input for the
analyzer correlation (n = 1 < 2). -/
theorem correlation_neutral_guards_witness :
    (min ([(1 : Rat), 2]).length ([(3 : Rat), 4]).length < 3) ∧
      SentimentModel.calculateCorrelation [1, 2] [3, 4] = 0 ∧
      (min ([(5 : Rat)]).length ([(6 : Rat)]).length < 2) ∧
      MarketSentimentAnalyzer._calculateCorrelation [5] [6] = 0 :=
  ⟨by norm_num,
    correlation_neutral_guards.1 [1, 2] [3, 4] (Or.inl (by norm_num)),
    by norm_num,
    correlation_neutral_guards.2 [5] [6] (Or.inl (by norm_num))⟩

/-! ### Claim C3 -/

theorem corrVariance_nonneg (x : List Rat) (n : Nat) : 0 ≤ corrVariance x n := by
  unfold corrVariance
  exact Finset.sum_nonneg fun i _ => mul_self_nonneg _

theorem corrNumerator_self (x : List Rat) (n : Nat) :
    corrNumerator x x n = corrVariance x n := rfl

theorem corrNumerator_sq_le (x y : List Rat) (n : Nat) :
    (corrNumerator x y n)^2 ≤ corrVariance x n * corrVariance y n := by
  have h := Finset.sum_mul_sq_le_sq_mul_sq (Finset.range n)
    (fun i => x.getD i 0 - sampleMean x n) (fun i => y.getD i 0 - sampleMean y n)
  simpa [corrNumerator, corrVariance, pow_two] using h

theorem abs_calculateCorrelation_le_one (x y : List Rat) :
    |SentimentModel.calculateCorrelation x y| ≤ 1 := by
  unfold SentimentModel.calculateCorrelation
  by_cases h3 : min x.length y.length < SentimentModel.minDataPoints
  · simp [h3]
  · rw [if_neg h3]
    by_cases hv : corrVariance x (min x.length y.length) = 0 ∨
        corrVariance y (min x.length y.length) = 0
    · simp [hv]
    · rw [if_neg hv]
      push_neg at hv
      set n := min x.length y.length
      have hx0 : 0 < corrVariance x n :=
        lt_of_le_of_ne (corrVariance_nonneg x n) (Ne.symm hv.1)
      have hy0 : 0 < corrVariance y n :=
        lt_of_le_of_ne (corrVariance_nonneg y n) (Ne.symm hv.2)
      have hD : (0 : Real) < ((corrVariance x n : Rat) : Real) *
          ((corrVariance y n : Rat) : Real) := by
        have : (0 : Rat) < corrVariance x n * corrVariance y n := mul_pos hx0 hy0
        exact_mod_cast this
      have hcast : (((corrVariance x n * corrVariance y n : Rat)) : Real) =
          ((corrVariance x n : Rat) : Real) * ((corrVariance y n : Rat) : Real) := by
        push_cast
        ring
      rw [hcast, abs_div, abs_of_nonneg (Real.sqrt_nonneg _)]
      have hsq : (0 : Real) < Real.sqrt (((corrVariance x n : Rat) : Real) *
          ((corrVariance y n : Rat) : Real)) := Real.sqrt_pos.mpr hD
      apply (div_le_one hsq).mpr
      rw [← Real.sqrt_sq_eq_abs]
      apply Real.sqrt_le_sqrt
      have := corrNumerator_sq_le x y n
      exact_mod_cast this

theorem eq_sampleMean_of_corrVariance_zero (x : List Rat) (n : Nat)
    (h : corrVariance x n = 0) :
    ∀ i < n, x.getD i 0 = sampleMean x n := by
  intro i hi
  unfold corrVariance at h
  have hterm := (Finset.sum_eq_zero_iff_of_nonneg
    (fun j _ => mul_self_nonneg (x.getD j 0 - sampleMean x n))).mp h i
    (Finset.mem_range.mpr hi)
  have := mul_self_eq_zero.mp hterm
  linarith

theorem calculateCorrelation_const (x y : List Rat) (c : Rat)
    (hc : ∀ a ∈ x, a = c) : SentimentModel.calculateCorrelation x y = 0 := by
  unfold SentimentModel.calculateCorrelation
  by_cases h3 : min x.length y.length < SentimentModel.minDataPoints
  · simp [h3]
  · rw [if_neg h3]
    have hn0 : 0 < min x.length y.length := by
      have h30 : 0 < SentimentModel.minDataPoints := by
        norm_num [SentimentModel.minDataPoints]
      exact lt_of_lt_of_le h30 (le_of_not_lt h3)
    set n := min x.length y.length with hn
    have hmem : ∀ i < n, x.getD i 0 = c := by
      intro i hi
      have hilen : i < x.length := lt_of_lt_of_le hi (min_le_left _ _)
      rw [List.getD_eq_getElem x 0 hilen]
      exact hc _ (List.getElem_mem hilen)
    have hmean : sampleMean x n = c := by
      have hlen : (x.take n).length = n := by
        rw [List.length_take]
        exact min_eq_left (min_le_left _ _)
      have htake : x.take n = List.replicate (x.take n).length c :=
        List.eq_replicate_of_mem fun b hb => hc b (List.mem_of_mem_take hb)
      unfold sampleMean
      rw [htake, List.sum_replicate, hlen, nsmul_eq_mul]
      field_simp
    have hvar : corrVariance x n = 0 := by
      unfold corrVariance
      apply Finset.sum_eq_zero
      intro i hi
      rw [hmem i (Finset.mem_range.mp hi), hmean]
      ring
    rw [if_pos (Or.inl hvar)]

theorem calculateCorrelation_self (s : List Rat)
    (h3 : SentimentModel.minDataPoints ≤ s.length)
    (hvar : corrVariance s s.length ≠ 0) :
    SentimentModel.calculateCorrelation s s = 1 := by
  unfold SentimentModel.calculateCorrelation
  rw [min_self]
  rw [if_neg (not_lt.mpr h3)]
  rw [if_neg (by simpa using hvar)]
  rw [corrNumerator_self]
  have hpos : 0 < corrVariance s s.length :=
    lt_of_le_of_ne (corrVariance_nonneg s _) (Ne.symm hvar)
  have hcast : (((corrVariance s s.length * corrVariance s s.length : Rat)) : Real) =
      ((corrVariance s s.length : Rat) : Real) * ((corrVariance s s.length : Rat) : Real) := by
    push_cast
    ring
  rw [hcast, Real.sqrt_mul_self (by exact_mod_cast le_of_lt hpos)]
  have : ((corrVariance s s.length : Rat) : Real) ≠ 0 := by
    exact_mod_cast hvar
  field_simp

theorem lagStep_eq (s1 s2 : List Rat) (best : Int × Real) (lag : Int) :
    SentimentModel.lagStep s1 s2 best lag =
      if SentimentModel.minDataPoints ≤ (SentimentModel.pairsAtLag s1 s2 lag).length then
        (if best.2 < SentimentModel.lagCorrAbs s1 s2 lag then
          (lag, SentimentModel.lagCorrAbs s1 s2 lag) else best)
      else best := rfl

theorem pairsAtLag_fst_mem (s1 s2 : List Rat) (lag : Int) :
    ∀ p ∈ SentimentModel.pairsAtLag s1 s2 lag, p.1 ∈ s1 := by
  intro p hp
  unfold SentimentModel.pairsAtLag at hp
  obtain ⟨i, hi, hf⟩ := List.mem_filterMap.mp hp
  have hilen : i < s1.length := List.mem_range.mp hi
  by_cases hcond : 0 ≤ (i : Int) + lag ∧ (i : Int) + lag < (s2.length : Int)
  · rw [if_pos hcond] at hf
    have hfst : p.1 = s1.getD i 0 := by
      cases hf
      rfl
    rw [hfst, List.getD_eq_getElem s1 0 hilen]
    exact List.getElem_mem hilen
  · rw [if_neg hcond] at hf
    exact absurd hf (Option.noConfusion)

theorem filterMap_eq_map_of_forall {A B : Type} (l : List A) (f : A → Option B)
    (g : A → B) (h : ∀ a ∈ l, f a = some (g a)) : l.filterMap f = l.map g := by
  induction l with
  | nil => rfl
  | cons a t ih =>
    rw [List.filterMap_cons, h a (List.mem_cons_self a t), List.map_cons,
      ih fun b hb => h b (List.mem_cons_of_mem a hb)]

theorem map_getD_range (l : List Rat) :
    (List.range l.length).map (fun i => l.getD i 0) = l := by
  apply List.ext_getElem
  · simp
  · intro i h1 h2
    rw [List.getElem_map, List.getElem_range, List.getD_eq_getElem l 0 h2]

theorem pairsAtLag_self_zero (s : List Rat) :
    SentimentModel.pairsAtLag s s 0 =
      (List.range s.length).map fun i => (s.getD i 0, s.getD i 0) := by
  unfold SentimentModel.pairsAtLag
  apply filterMap_eq_map_of_forall
  intro i hi
  have hilen : i < s.length := List.mem_range.mp hi
  have hcond : 0 ≤ (i : Int) + 0 ∧ (i : Int) + 0 < (s.length : Int) := by
    constructor <;> omega
  rw [if_pos hcond]
  norm_num

theorem pairsAtLag_self_zero_fst (s : List Rat) :
    (SentimentModel.pairsAtLag s s 0).map Prod.fst = s := by
  rw [pairsAtLag_self_zero, List.map_map]
  exact map_getD_range s

theorem pairsAtLag_self_zero_snd (s : List Rat) :
    (SentimentModel.pairsAtLag s s 0).map Prod.snd = s := by
  rw [pairsAtLag_self_zero, List.map_map]
  exact map_getD_range s

theorem pairsAtLag_self_zero_length (s : List Rat) :
    (SentimentModel.pairsAtLag s s 0).length = s.length := by
  rw [pairsAtLag_self_zero, List.length_map, List.length_range]

theorem lagCorrAbs_le_one (s1 s2 : List Rat) (lag : Int) :
    SentimentModel.lagCorrAbs s1 s2 lag ≤ 1 := by
  unfold SentimentModel.lagCorrAbs
  exact abs_calculateCorrelation_le_one _ _

theorem lagCorrAbs_nonneg (s1 s2 : List Rat) (lag : Int) :
    0 ≤ SentimentModel.lagCorrAbs s1 s2 lag := by
  unfold SentimentModel.lagCorrAbs
  exact abs_nonneg _

theorem foldl_lagStep_fst_nonpos (s1 s2 : List Rat) (L : List Int)
    (h : ∀ l ∈ L, l ≤ 0) :
    ∀ best : Int × Real, best.1 ≤ 0 →
      (L.foldl (SentimentModel.lagStep s1 s2) best).1 ≤ 0 := by
  induction L with
  | nil => exact fun best hb => hb
  | cons a t ih =>
    intro best hb
    rw [List.foldl_cons]
    apply ih fun l hl => h l (List.mem_cons_of_mem a hl)
    rw [lagStep_eq]
    by_cases h1 : SentimentModel.minDataPoints ≤
        (SentimentModel.pairsAtLag s1 s2 a).length
    · rw [if_pos h1]
      by_cases h2 : best.2 < SentimentModel.lagCorrAbs s1 s2 a
      · rw [if_pos h2]
        exact h a (List.mem_cons_self a t)
      · rw [if_neg h2]
        exact hb
    · rw [if_neg h1]
      exact hb

theorem lagStep_keep_of_ge_one (s1 s2 : List Rat) (best : Int × Real) (lag : Int)
    (h : 1 ≤ best.2) : SentimentModel.lagStep s1 s2 best lag = best := by
  rw [lagStep_eq]
  by_cases h1 : SentimentModel.minDataPoints ≤
      (SentimentModel.pairsAtLag s1 s2 lag).length
  · rw [if_pos h1, if_neg (not_lt.mpr (le_trans (lagCorrAbs_le_one s1 s2 lag) h))]
  · rw [if_neg h1]

theorem foldl_lagStep_keep_of_ge_one (s1 s2 : List Rat) (L : List Int)
    (best : Int × Real) (h : 1 ≤ best.2) :
    L.foldl (SentimentModel.lagStep s1 s2) best = best := by
  induction L with
  | nil => rfl
  | cons a t ih =>
    rw [List.foldl_cons, lagStep_keep_of_ge_one s1 s2 best a h, ih]

theorem lagStep_keep_of_const (s : List Rat) (c : Rat) (hc : ∀ a ∈ s, a = c)
    (best : Int × Real) (h : 0 ≤ best.2) (lag : Int) :
    SentimentModel.lagStep s s best lag = best := by
  rw [lagStep_eq]
  by_cases h1 : SentimentModel.minDataPoints ≤
      (SentimentModel.pairsAtLag s s lag).length
  · have hzero : SentimentModel.lagCorrAbs s s lag = 0 := by
      unfold SentimentModel.lagCorrAbs
      rw [calculateCorrelation_const _ _ c]
      · exact abs_zero
      · intro a ha
        obtain ⟨p, hp, hpa⟩ := List.mem_map.mp ha
        rw [← hpa]
        exact hc _ (pairsAtLag_fst_mem s s lag p hp)
    rw [if_pos h1, hzero, if_neg (not_lt.mpr h)]
  · rw [if_neg h1]

theorem foldl_lagStep_keep_of_const (s : List Rat) (c : Rat) (hc : ∀ a ∈ s, a = c)
    (L : List Int) (best : Int × Real) (h : 0 ≤ best.2) :
    L.foldl (SentimentModel.lagStep s s) best = best := by
  induction L with
  | nil => rfl
  | cons a t ih =>
    rw [List.foldl_cons, lagStep_keep_of_const s c hc best h a, ih]

theorem lagList_decomp (M : Nat) :
    SentimentModel.lagList M =
      ((List.range M).map fun (k : Nat) => (k : Int) - (M : Int)) ++ [0] ++
        ((List.range M).map fun (j : Nat) => (j : Int) + 1) := by
  unfold SentimentModel.lagList
  have h2M : 2 * M + 1 = (M + 1) + M := by omega
  rw [h2M, List.range_add, List.map_append]
  congr 1
  · rw [List.range_succ, List.map_append]
    congr 1
    simp
  · rw [List.map_map]
    apply List.map_congr_left
    intro j _
    simp only [Function.comp_apply]
    push_cast
    ring

/-- C3 amended: for every series s and every maxLag, the self lag
calculateOptimalLag(s, s, maxLag) is never strictly positive.  It need
not be 0: the ascending scan keeps the first strictly greater absolute
correlation, and a series that is perfectly correlated with a shifted
copy of itself (such as a geometric series) already reaches absolute
correlation 1 at a negative lag, which lag 0 then only ties (see the
counterexample, which returns -1). -/
theorem calculateOptimalLag_self_nonpos (s : List Rat) (maxLag : Nat) :
    SentimentModel.calculateOptimalLag s s maxLag ≤ 0 := by
  unfold SentimentModel.calculateOptimalLag
  by_cases hlen : s.length < SentimentModel.minDataPoints ∨
      s.length < SentimentModel.minDataPoints
  · rw [if_pos hlen]
  · rw [if_neg hlen]
    have h3 : SentimentModel.minDataPoints ≤ s.length :=
      le_of_not_lt (not_or.mp hlen).1
    by_cases hvar : corrVariance s s.length = 0
    · have hc : ∀ a ∈ s, a = sampleMean s s.length := by
        intro a ha
        obtain ⟨i, hi, hia⟩ := List.mem_iff_getElem.mp ha
        rw [← hia, ← List.getD_eq_getElem s 0 hi]
        exact eq_sampleMean_of_corrVariance_zero s _ hvar i hi
      rw [foldl_lagStep_keep_of_const s _ hc _ _ (le_refl 0)]
    · have hcorr : SentimentModel.calculateCorrelation s s = 1 :=
        calculateCorrelation_self s h3 hvar
      rw [lagList_decomp, List.foldl_append, List.foldl_append]
      set st1 := ((List.range maxLag).map fun (k : Nat) =>
        (k : Int) - (maxLag : Int)).foldl (SentimentModel.lagStep s s) (0, 0) with hst1
      have hst1fst : st1.1 ≤ 0 := by
        apply foldl_lagStep_fst_nonpos
        · intro l hl
          obtain ⟨k, hk, hkl⟩ := List.mem_map.mp hl
          have := List.mem_range.mp hk
          omega
        · exact le_refl 0
      have hc0 : SentimentModel.lagCorrAbs s s 0 = 1 := by
        unfold SentimentModel.lagCorrAbs
        rw [pairsAtLag_self_zero_fst, pairsAtLag_self_zero_snd, hcorr]
        exact abs_one
      have hlen0 : SentimentModel.minDataPoints ≤
          (SentimentModel.pairsAtLag s s 0).length := by
        rw [pairsAtLag_self_zero_length]
        exact h3
      rw [List.foldl_cons, List.foldl_nil, lagStep_eq, if_pos hlen0, hc0]
      by_cases hlt : st1.2 < 1
      · rw [if_pos hlt,
          foldl_lagStep_keep_of_ge_one s s _ ((0 : Int), (1 : Real)) (le_refl 1)]
      · rw [if_neg hlt,
          foldl_lagStep_keep_of_ge_one s s _ st1 (not_lt.mp hlt)]
        exact hst1fst

/-- C3 counterexample: on the geometric series s = [1, 2, 4, 8] with
maxLag = 1, the scan visits lag -1 first, where the overlap pairs
(2,1), (4,2), (8,4) are perfectly correlated (|corr| = 1 > 0), so
bestLag becomes -1; lag 0 also has |corr| = 1, which is not strictly
greater, so the documented tie-break keeps -1 and
calculateOptimalLag(s, s, 1) = -1, not 0. -/
theorem calculateOptimalLag_self_cex :
    SentimentModel.calculateOptimalLag [1, 2, 4, 8] [1, 2, 4, 8] 1 = -1 := by
  have hA : SentimentModel.calculateCorrelation [2, 4, 8] [1, 2, 4] = 1 := by
    unfold SentimentModel.calculateCorrelation
    have hvx : corrVariance [2, 4, 8] 3 = 56/3 := by
      norm_num [corrVariance, sampleMean, Finset.sum_range_succ]
    have hvy : corrVariance [1, 2, 4] 3 = 14/3 := by
      norm_num [corrVariance, sampleMean, Finset.sum_range_succ]
    have hn : corrNumerator [2, 4, 8] [1, 2, 4] 3 = 28/3 := by
      norm_num [corrNumerator, sampleMean, Finset.sum_range_succ]
    norm_num [hvx, hvy, hn, SentimentModel.minDataPoints]
    rw [show (784 : Real) = 28^2 by norm_num, show (9 : Real) = 3^2 by norm_num,
      Real.sqrt_sq (by norm_num : (0 : Real) ≤ 28),
      Real.sqrt_sq (by norm_num : (0 : Real) ≤ 3)]
    norm_num
  have hC : SentimentModel.calculateCorrelation [1, 2, 4] [2, 4, 8] = 1 := by
    unfold SentimentModel.calculateCorrelation
    have hvx : corrVariance [1, 2, 4] 3 = 14/3 := by
      norm_num [corrVariance, sampleMean, Finset.sum_range_succ]
    have hvy : corrVariance [2, 4, 8] 3 = 56/3 := by
      norm_num [corrVariance, sampleMean, Finset.sum_range_succ]
    have hn : corrNumerator [1, 2, 4] [2, 4, 8] 3 = 28/3 := by
      norm_num [corrNumerator, sampleMean, Finset.sum_range_succ]
    norm_num [hvx, hvy, hn, SentimentModel.minDataPoints]
    rw [show (784 : Real) = 28^2 by norm_num, show (9 : Real) = 3^2 by norm_num,
      Real.sqrt_sq (by norm_num : (0 : Real) ≤ 28),
      Real.sqrt_sq (by norm_num : (0 : Real) ≤ 3)]
    norm_num
  have hB : SentimentModel.calculateCorrelation [1, 2, 4, 8] [1, 2, 4, 8] = 1 := by
    apply calculateCorrelation_self
    · norm_num [SentimentModel.minDataPoints]
    · show corrVariance [1, 2, 4, 8] 4 ≠ 0
      norm_num [corrVariance, sampleMean, Finset.sum_range_succ]
  have c1 : SentimentModel.lagCorrAbs [1, 2, 4, 8] [1, 2, 4, 8] (-1) = 1 := by
    unfold SentimentModel.lagCorrAbs
    rw [show SentimentModel.pairsAtLag [1, 2, 4, 8] [1, 2, 4, 8] (-1) =
      [(2, 1), (4, 2), (8, 4)] by decide]
    rw [show ([((2 : Rat), (1 : Rat)), (4, 2), (8, 4)].map Prod.fst) = [2, 4, 8] from rfl,
      show ([((2 : Rat), (1 : Rat)), (4, 2), (8, 4)].map Prod.snd) = [1, 2, 4] from rfl,
      hA, abs_one]
  have c0 : SentimentModel.lagCorrAbs [1, 2, 4, 8] [1, 2, 4, 8] 0 = 1 := by
    unfold SentimentModel.lagCorrAbs
    rw [pairsAtLag_self_zero_fst, pairsAtLag_self_zero_snd, hB, abs_one]
  have c2 : SentimentModel.lagCorrAbs [1, 2, 4, 8] [1, 2, 4, 8] 1 = 1 := by
    unfold SentimentModel.lagCorrAbs
    rw [show SentimentModel.pairsAtLag [1, 2, 4, 8] [1, 2, 4, 8] 1 =
      [(1, 2), (2, 4), (4, 8)] by decide]
    rw [show ([((1 : Rat), (2 : Rat)), (2, 4), (4, 8)].map Prod.fst) = [1, 2, 4] from rfl,
      show ([((1 : Rat), (2 : Rat)), (2, 4), (4, 8)].map Prod.snd) = [2, 4, 8] from rfl,
      hC, abs_one]
  have e1 : SentimentModel.lagStep [1, 2, 4, 8] [1, 2, 4, 8] (0, 0) (-1) = (-1, 1) := by
    rw [lagStep_eq, c1, if_pos, if_pos]
    · norm_num
    · rw [show SentimentModel.pairsAtLag [1, 2, 4, 8] [1, 2, 4, 8] (-1) =
        [(2, 1), (4, 2), (8, 4)] by decide]
      norm_num [SentimentModel.minDataPoints]
  have e2 : SentimentModel.lagStep [1, 2, 4, 8] [1, 2, 4, 8] (-1, 1) 0 = (-1, 1) := by
    rw [lagStep_eq, c0, if_pos, if_neg]
    · norm_num
    · rw [pairsAtLag_self_zero_length]
      norm_num [SentimentModel.minDataPoints]
  have e3 : SentimentModel.lagStep [1, 2, 4, 8] [1, 2, 4, 8] (-1, 1) 1 = (-1, 1) := by
    rw [lagStep_eq, c2, if_pos, if_neg]
    · norm_num
    · rw [show SentimentModel.pairsAtLag [1, 2, 4, 8] [1, 2, 4, 8] 1 =
        [(1, 2), (2, 4), (4, 8)] by decide]
      norm_num [SentimentModel.minDataPoints]
  unfold SentimentModel.calculateOptimalLag
  rw [if_neg (by norm_num [SentimentModel.minDataPoints])]
  rw [show SentimentModel.lagList 1 = [-1, 0, 1] by decide]
  rw [List.foldl_cons, e1, List.foldl_cons, e2, List.foldl_cons, e3, List.foldl_nil]
